import Mathlib

/-!
Verification development for the pronto WhatsApp automation repository.

The definitions below are a shallow embedding of the inbound message
pipeline and the worker session layer:

* `handleIncomingMessage` embeds src/lib/services/message-handler.ts
  (organization lookup, lead resolution and mutation, deduplication,
  message persistence, the automation gate coupled with the AI responder call,
  and the top level try/catch).
* `workerClassify`, `workerUpsertAction`, `webhookProcess` embed the
  messages.upsert handler of the worker (src/worker/src/auth.ts) and the
  webhook route that feeds forwarded events into the pipeline.
* `attachHandlerStep` embeds the per-message logic of attachHandler in the
  legacy in-process integration (broadcast filter, 24h staleness filter,
  text extraction).
* `raceRun` is a small-step interleaving model of getOrCreateSession for a
  single tenant under two concurrent calls.
* `histQueueMessages` and `histFlush` embed the HistoryManager batcher.
* `workerSendMessage` embeds the worker sendMessage with its pending-echo
  registration, and `pairingRun` embeds the retry loop of
  requestPairingCode in the legacy integration.

Storage is modelled as in-memory lists; awaited calls that may reject are
modelled by an explicit injected failure point in `Env`.
-/

namespace Pronto

/-- Automation status of a lead (the ai_status column): active or paused. -/
inductive AiStatus
  | active
  | paused
  deriving DecidableEq, Repr

/-- Message role stored in the messages table. -/
inductive Role
  | user
  | assistant
  | system
  deriving DecidableEq, Repr

/-- A row of the leads table, restricted to the fields the pipeline touches. -/
structure Lead where
  id : Nat
  orgId : String
  phone : String
  status : String
  ai_status : AiStatus
  name : Option String
  real_phone : Option String
  deriving DecidableEq, Repr

/-- A row of the messages table, restricted to the fields the pipeline touches. -/
structure Message where
  organization_id : String
  lead_id : Nat
  role : Role
  content : String
  mtype : String
  whatsapp_message_id : Option String
  deriving DecidableEq, Repr

/-- The slice of durable storage read and written by the inbound pipeline. -/
structure Db where
  orgs : List String
  leads : List Lead
  messages : List Message
  nextLeadId : Nat
  deriving DecidableEq, Repr

/-- JS `s.split(sep)[0]` for the separator `@`: the part of the string
before the first `@` (the whole string when no `@` occurs). -/
def jidUser (s : String) : String :=
  (s.toList.takeWhile (fun c => c != '@')).asString

/-- The lead lookup `.eq(organization_id).eq(phone).single()`. -/
def findLead (leads : List Lead) (orgId phone : String) : Option Lead :=
  leads.find? (fun l => l.orgId == orgId && l.phone == phone)

/-- Supabase-style `.update(...).eq(id, lid)`: rewrite every row with this id. -/
def updateLead (leads : List Lead) (lid : Nat) (f : Lead → Lead) : List Lead :=
  leads.map (fun l => if l.id == lid then f l else l)

/-- The dedup query: does any stored message carry this whatsapp_message_id? -/
def messageIdExists (msgs : List Message) (wid : String) : Bool :=
  msgs.any (fun m => m.whatsapp_message_id == some wid)

/-- How many stored messages carry this whatsapp_message_id. -/
def countWithId (msgs : List Message) (wid : String) : Nat :=
  (msgs.filter (fun m => m.whatsapp_message_id == some wid)).length

/-- Awaited calls inside handleIncomingMessage at which a rejection can surface. -/
inductive FailPoint
  | orgLookup
  | leadLookup
  | leadInsert
  | leadUpdate
  | dedupLookup
  | msgInsert
  | historyLookup
  | aiCall
  | aiMsgInsert
  | send
  deriving DecidableEq, Repr

/-- External behaviour of one run: at most one injected rejection, the final
text produced by the AI responder (message content or folded tool result,
none when the model returned no text), and the value of Date.now(). -/
structure Env where
  failAt : Option FailPoint
  aiFinalResponse : Option String
  now : Nat
  deriving DecidableEq, Repr

/-- Whether the injected rejection fires at this point. -/
def Env.fails (env : Env) (fp : FailPoint) : Bool := env.failAt == some fp

/-- Arguments of handleIncomingMessage(orgId, from, messageText, isFromMe,
name, whatsappMessageId, senderPn). -/
structure MsgInput where
  orgId : String
  sender : String
  text : String
  isFromMe : Bool
  name : String
  waId : Option String
  senderPn : Option String
  deriving DecidableEq, Repr

/-- JS `senderPn ? senderPn.split(at)[0] : null` (the empty string is falsy). -/
def realPhoneOf (senderPn : Option String) : Option String :=
  match senderPn with
  | none => none
  | some s => if s == "" then none else some (jidUser s)

/-- How a run of the pipeline ended (each constructor is one return site). -/
inductive PipeExit
  | noOrg
  | dedupSkipped
  | fromMeStop
  | pausedStop
  | completed (replied : Bool)
  deriving DecidableEq, Repr

/-- Result of a run that did not raise: final storage, the return site taken,
whether the AI responder was called, and the reply text handed to send. -/
structure PipeResult where
  db : Db
  exit : PipeExit
  aiInvoked : Bool
  sentText : Option String
  deriving DecidableEq, Repr

/-- Observable outcome of the top level handler: a normal return or a caught,
logged error. There is no constructor for a propagated exception. -/
inductive Outcome
  | ok (e : PipeExit)
  | loggedError (fp : FailPoint)
  deriving DecidableEq, Repr

/-- The lead insert of the no-lead branch: status new, ai paused when the
triggering event came from the own device, name only when non-empty. -/
def newLeadOf (db : Db) (inp : MsgInput) (phone : String) : Lead :=
  { id := db.nextLeadId
    orgId := inp.orgId
    phone := phone
    status := "new"
    ai_status := if inp.isFromMe then AiStatus.paused else AiStatus.active
    name := if inp.name == "" then none else some inp.name
    real_phone := none }

/-- The existing-lead mutation block: pause the AI on an own-device message,
update the name when provided and different, reconcile real_phone. -/
def resolveExistingLead (inp : MsgInput) (lead : Lead) : Lead :=
  let l1 := if inp.isFromMe && !(lead.ai_status == AiStatus.paused)
            then { lead with ai_status := AiStatus.paused } else lead
  let l2 := if inp.name != "" && !(l1.name == some inp.name)
            then { l1 with name := some inp.name } else l1
  match realPhoneOf inp.senderPn with
  | some rp =>
      if rp != "" && !(l2.real_phone == some rp)
      then { l2 with real_phone := some rp } else l2
  | none => l2

/-- The message row inserted for the triggering event. -/
def savedMsg (inp : MsgInput) (lead : Lead) : Message :=
  { organization_id := inp.orgId
    lead_id := lead.id
    role := if inp.isFromMe then Role.assistant else Role.user
    content := inp.text
    mtype := "text"
    whatsapp_message_id := inp.waId }

/-- The message row inserted for the AI reply, with its synthetic ai- id. -/
def aiMsg (env : Env) (inp : MsgInput) (lead : Lead) (rep : String) : Message :=
  { organization_id := inp.orgId
    lead_id := lead.id
    role := Role.assistant
    content := rep
    mtype := "text"
    whatsapp_message_id := some ("ai-" ++ toString env.now) }

/-- Steps 4 onward of handleIncomingMessage: persist the message, stop on an
own-device message, stop when the AI is paused, otherwise fetch history, call
the AI responder, persist a textual reply and send it. -/
def savePhase (env : Env) (db : Db) (inp : MsgInput) (lead : Lead) :
    Except (Db × FailPoint) PipeResult :=
  if env.fails .msgInsert then .error (db, .msgInsert)
  else
    let db1 : Db := { db with messages := db.messages ++ [savedMsg inp lead] }
    if inp.isFromMe then .ok ⟨db1, .fromMeStop, false, none⟩
    else if lead.ai_status == AiStatus.paused then .ok ⟨db1, .pausedStop, false, none⟩
    else if env.fails .historyLookup then .error (db1, .historyLookup)
    else if env.fails .aiCall then .error (db1, .aiCall)
    else
      match env.aiFinalResponse with
      | none => .ok ⟨db1, .completed false, true, none⟩
      | some rep =>
          if env.fails .aiMsgInsert then .error (db1, .aiMsgInsert)
          else
            let db2 : Db := { db1 with messages := db1.messages ++ [aiMsg env inp lead rep] }
            if env.fails .send then .error (db2, .send)
            else .ok ⟨db2, .completed true, true, some rep⟩

/-- Step 3 of handleIncomingMessage: when the event carries a (truthy)
whatsapp_message_id and a message with that id already exists, discard. -/
def dedupPhase (env : Env) (db : Db) (inp : MsgInput) (lead : Lead) :
    Except (Db × FailPoint) PipeResult :=
  match inp.waId with
  | some wid =>
      if wid == "" then savePhase env db inp lead
      else if env.fails .dedupLookup then .error (db, .dedupLookup)
      else if messageIdExists db.messages wid then .ok ⟨db, .dedupSkipped, false, none⟩
      else savePhase env db inp lead
  | none => savePhase env db inp lead

/-- The body of handleIncomingMessage before the top level catch: organization
lookup, lead resolution and mutation, then dedup and persistence. -/
def pipelineCore (env : Env) (db : Db) (inp : MsgInput) :
    Except (Db × FailPoint) PipeResult :=
  if env.fails .orgLookup then .error (db, .orgLookup)
  else if !(db.orgs.contains inp.orgId) then .ok ⟨db, .noOrg, false, none⟩
  else
    let phone := jidUser inp.sender
    if env.fails .leadLookup then .error (db, .leadLookup)
    else
      match findLead db.leads inp.orgId phone with
      | none =>
          if env.fails .leadInsert then .error (db, .leadInsert)
          else
            let nl := newLeadOf db inp phone
            let db1 : Db := { db with leads := db.leads ++ [nl], nextLeadId := db.nextLeadId + 1 }
            dedupPhase env db1 inp nl
      | some lead =>
          if env.fails .leadUpdate then .error (db, .leadUpdate)
          else
            let l2 := resolveExistingLead inp lead
            let db1 : Db := { db with leads := updateLead db.leads lead.id (fun _ => l2) }
            dedupPhase env db1 inp l2

/-- handleIncomingMessage: the whole body runs inside try/catch; a rejection
at any point is caught and logged, and the function returns normally. -/
def handleIncomingMessage (env : Env) (db : Db) (inp : MsgInput) : Db × Outcome :=
  match pipelineCore env db inp with
  | .ok r => (r.db, Outcome.ok r.exit)
  | .error (db1, fp) => (db1, Outcome.loggedError fp)

/-! ## Worker event classification and the webhook boundary -/

/-- Library predicate: a broadcast jid ends with the broadcast suffix. -/
def isJidBroadcast (jid : String) : Bool :=
  "@broadcast".toList.isSuffixOf jid.toList

/-- Library predicate: the status channel jid. -/
def isJidStatusBroadcast (jid : String) : Bool := jid == "status@broadcast"

/-- JS truthy-or on an optional string against a fallback (empty is falsy). -/
def jsOr (a : Option String) (b : String) : String :=
  match a with
  | some s => if s == "" then b else s
  | none => b

/-- The key of a raw network event: chat jid, direction flag, event id. -/
structure WAKey where
  remoteJid : Option String
  fromMe : Bool
  id : Option String
  deriving DecidableEq, Repr

/-- Timestamp shapes the protocol library may deliver: a plain number of unix
seconds, a decimal string, or a Long-like object carrying a low field. -/
inductive TsShape
  | num (n : Nat)
  | str (s : String)
  | longLow (low : Nat)
  deriving DecidableEq, Repr

/-- A raw inbound event: key, push name, the possible text carriers, whether
the message body is non-null, and the embedded timestamp. -/
structure RawMessage where
  key : WAKey
  pushName : Option String
  conversation : Option String
  extendedText : Option String
  imageCaption : Option String
  hasContent : Bool
  timestamp : Option TsShape
  deriving DecidableEq, Repr

/-- Numeric value of a list of decimal digits. -/
def digitsToNat (l : List Char) : Nat :=
  l.foldl (fun n c => n * 10 + (c.toNat - 48)) 0

/-- JS parseInt on a decimal string: longest digit prefix, none when empty. -/
def parseIntNat (s : String) : Option Nat :=
  let digits := s.toList.takeWhile Char.isDigit
  if digits.isEmpty then none else some (digitsToNat digits)

/-- The messageTime (milliseconds) computed by attachHandler for each
timestamp shape (number seconds, parseInt of a string, the low field). -/
def decodeMsgTimeMs : TsShape → Nat
  | .num n => n * 1000
  | .str s => (parseIntNat s).getD 0 * 1000
  | .longLow low => low * 1000

/-- JS truthiness of the raw timestamp value guarding the staleness block. -/
def tsTruthy : TsShape → Bool
  | .num n => n != 0
  | .str s => s != ""
  | .longLow _ => true

/-- Fixed 24 hour staleness window of attachHandler, in milliseconds. -/
def staleWindowMs : Nat := 24 * 60 * 60 * 1000

/-- Per-message decision of the legacy attachHandler: drop broadcast and
status events, drop events older than 24 hours, extract text, hand the rest
to the registered message handler. -/
inductive LiveAction
  | skipBroadcast
  | skipStale
  | skipNoText
  | handled (sender : String) (text : String) (isFromMe : Bool)
  deriving DecidableEq, Repr

/-- The body of the for-loop of attachHandler in the legacy integration. -/
def attachHandlerStep (now : Nat) (msg : RawMessage) : LiveAction :=
  let jid := msg.key.remoteJid.getD ""
  if isJidBroadcast jid || isJidStatusBroadcast jid then .skipBroadcast
  else
    let stale :=
      match msg.timestamp with
      | some ts =>
          if tsTruthy ts then
            let mt := decodeMsgTimeMs ts
            if 0 < mt then decide (staleWindowMs < now - mt) else false
          else false
      | none => false
    if stale then .skipStale
    else
      let text := jsOr msg.conversation (jsOr msg.extendedText "")
      if text != "" then .handled jid text msg.key.fromMe else .skipNoText

/-- Decision of the worker messages.upsert handler for one event. -/
inductive WorkerAction
  | queuedHistory
  | skipBroadcast
  | skipEcho
  | forwarded (isFromMe : Bool)
  deriving DecidableEq, Repr

/-- Per-message branch of the worker messages.upsert handler: drop broadcast
events; for own-device events drop those whose id sits in the pending-echo
set (recentlySentMessageIds) and forward the rest as human-owner messages;
forward counterpart events. -/
def workerClassify (recentlySent : List String) (key : WAKey) : WorkerAction :=
  if isJidBroadcast (key.remoteJid.getD "") then .skipBroadcast
  else if key.fromMe then
    if (match key.id with
        | some i => i != "" && recentlySent.contains i
        | none => false)
    then .skipEcho
    else .forwarded true
  else .forwarded false

/-- The worker messages.upsert handler: append batches go whole to the
HistoryManager; every other event is classified per message. -/
def workerUpsertAction (recentlySent : List String) (utype : String) (key : WAKey) : WorkerAction :=
  if utype == "append" then .queuedHistory
  else workerClassify recentlySent key

/-- The arguments the worker webhook route passes to handleIncomingMessage
for a forwarded raw event. -/
def webhookInput (orgId : String) (msg : RawMessage) : MsgInput :=
  { orgId := orgId
    sender := msg.key.remoteJid.getD ""
    text := jsOr msg.conversation (jsOr msg.extendedText "")
    isFromMe := msg.key.fromMe
    name := jsOr msg.pushName ""
    waId := msg.key.id
    senderPn := none }

/-- The worker webhook route: extract text and, when non-empty, run the
inbound pipeline on the forwarded event. -/
def webhookProcess (env : Env) (db : Db) (orgId : String) (msg : RawMessage) :
    Db × Option Outcome :=
  let text := jsOr msg.conversation (jsOr msg.extendedText "")
  if text != "" then
    let r := handleIncomingMessage env db (webhookInput orgId msg)
    (r.1, some r.2)
  else (db, none)

/-- Worker live-path processing of one raw event: classify, and when the
event is forwarded, deliver it through the webhook into the pipeline. -/
def workerProcessLive (env : Env) (recentlySent : List String) (db : Db)
    (orgId : String) (utype : String) (msg : RawMessage) : Db × WorkerAction :=
  match workerUpsertAction recentlySent utype msg.key with
  | .forwarded b => ((webhookProcess env db orgId msg).1, .forwarded b)
  | a => (db, a)

/-! ## Interleaving model of getOrCreateSession -/

/-- Program counter of one getOrCreateSession(orgId, false) call: the
synchronous prefix up to the first await, the suspended region covering the
awaits before the socket is built, and the returned handle. -/
inductive CallPhase
  | ready
  | buildWait
  | finished (handle : Nat)
  deriving DecidableEq, Repr

/-- Shared worker state for one tenant plus the phases of two calls:
the sessions map entry, a fresh-handle counter, and the handles that some
call actually constructed with makeWASocket. -/
structure RaceState where
  session : Option Nat
  nextHandle : Nat
  built : List Nat
  c1 : CallPhase
  c2 : CallPhase
  deriving DecidableEq, Repr

/-- One scheduler step of a call. From ready: the sessions.has check either
returns the registered handle or falls through to the awaits (suspending).
From buildWait: the resumed call builds a fresh socket, registers it in the
sessions map and returns it. -/
def stepPhase (session : Option Nat) (nextHandle : Nat) (built : List Nat) :
    CallPhase → Option Nat × Nat × List Nat × CallPhase
  | .ready =>
      match session with
      | some h => (session, nextHandle, built, .finished h)
      | none => (session, nextHandle, built, .buildWait)
  | .buildWait =>
      (some nextHandle, nextHandle + 1, built ++ [nextHandle], .finished nextHandle)
  | .finished h => (session, nextHandle, built, .finished h)

/-- Run one step of the chosen call (false = first call, true = second). -/
def raceStep (s : RaceState) (which : Bool) : RaceState :=
  if which then
    let (sess, nh, b, p) := stepPhase s.session s.nextHandle s.built s.c2
    { session := sess, nextHandle := nh, built := b, c1 := s.c1, c2 := p }
  else
    let (sess, nh, b, p) := stepPhase s.session s.nextHandle s.built s.c1
    { session := sess, nextHandle := nh, built := b, c1 := p, c2 := s.c2 }

/-- Run a schedule of interleaved steps. -/
def raceRun (s : RaceState) (sched : List Bool) : RaceState :=
  sched.foldl raceStep s

/-- No session registered, both calls about to start. -/
def raceInit : RaceState :=
  { session := none, nextHandle := 0, built := [], c1 := .ready, c2 := .ready }

/-! ## HistoryManager -/

/-- Batch threshold of the HistoryManager. -/
def historyBatchSize : Nat := 100

/-- Interval of the flush timer, in milliseconds. -/
def historyFlushIntervalMs : Nat := 2000

/-- A lead row as the history path creates it. -/
structure HistLead where
  orgId : String
  phone : String
  id : Nat
  ai_status : AiStatus
  deriving DecidableEq, Repr

/-- One row of a bulk insert built by flush. -/
structure HistInsert where
  orgId : String
  leadId : Nat
  role : Role
  content : String
  createdAtSec : Nat
  deriving DecidableEq, Repr

/-- State of the HistoryManager: the ordered queue of (orgId, message)
pairs, the processing flag, the lead cache, the leads store, and the size of
every bulk insert performed so far (one entry per insert call). -/
structure HistSys where
  queue : List (String × RawMessage)
  processing : Bool
  leadCache : List ((String × String) × Nat)
  leads : List HistLead
  nextLead : Nat
  batchInserts : List Nat
  deriving DecidableEq, Repr

/-- Empty HistoryManager state. -/
def histInit : HistSys :=
  { queue := [], processing := false, leadCache := [], leads := [],
    nextLead := 0, batchInserts := [] }

/-- getOrCreateLead of the history path: fetch by (org, phone) or insert a
lead with ai paused exactly when the historical direction was own-device. -/
def histGetOrCreateLead (s : HistSys) (orgId phone : String) (isFromMe : Bool) :
    HistSys × Nat :=
  match s.leads.find? (fun l => l.orgId == orgId && l.phone == phone) with
  | some l => (s, l.id)
  | none =>
      let nl : HistLead :=
        { orgId := orgId, phone := phone, id := s.nextLead
          ai_status := if isFromMe then AiStatus.paused else AiStatus.active }
      ({ s with leads := s.leads ++ [nl], nextLead := s.nextLead + 1 }, nl.id)

/-- The creation timestamp in seconds: a plain number is used directly,
otherwise the low field when truthy, otherwise now in seconds. -/
def histTsSec (nowMs : Nat) : Option TsShape → Nat
  | some (.num n) => n
  | some (.longLow low) => if low == 0 then nowMs / 1000 else low
  | some (.str _) => nowMs / 1000
  | none => nowMs / 1000

/-- Per-item body of the flush loop: resolve the lead through the cache,
extract text (conversation, extended text or image caption) and append a row
to the pending bulk insert when text is present. -/
def histProcessItem (nowMs : Nat) (acc : HistSys × List HistInsert)
    (item : String × RawMessage) : HistSys × List HistInsert :=
  let s := acc.1
  let inserts := acc.2
  let orgId := item.1
  let m := item.2
  match m.key.remoteJid with
  | none => (s, inserts)
  | some jid =>
      if jid == "" then (s, inserts)
      else
        let phone := jidUser jid
        let cacheKey := (orgId, phone)
        let resolved :=
          match s.leadCache.find? (fun e => e.1 == cacheKey) with
          | some e => (s, e.2)
          | none =>
              let r := histGetOrCreateLead s orgId phone m.key.fromMe
              ({ r.1 with leadCache := r.1.leadCache ++ [(cacheKey, r.2)] }, r.2)
        let s1 := resolved.1
        let leadId := resolved.2
        let text := jsOr m.conversation (jsOr m.extendedText (jsOr m.imageCaption ""))
        if text == "" then (s1, inserts)
        else
          (s1, inserts ++
            [{ orgId := orgId, leadId := leadId
               role := if m.key.fromMe then Role.assistant else Role.user
               content := text
               createdAtSec := histTsSec nowMs m.timestamp }])

/-- flush: a no-op when a flush is in progress or the queue is empty;
otherwise splice up to batchSize items off the queue, build the insert rows,
and perform a single bulk insert when any row was built. -/
def histFlush (nowMs : Nat) (s : HistSys) : HistSys :=
  if s.processing || s.queue.isEmpty then s
  else
    let batch := s.queue.take historyBatchSize
    let rest := s.queue.drop historyBatchSize
    let folded := batch.foldl (histProcessItem nowMs) ({ s with queue := rest }, [])
    let s1 := folded.1
    let inserts := folded.2
    if inserts.length > 0
    then { s1 with batchInserts := s1.batchInserts ++ [inserts.length] }
    else s1

/-- queueMessages: push every event with a non-null body, then flush once
when the queue has reached the batch threshold. -/
def histQueueMessages (nowMs : Nat) (s : HistSys) (orgId : String)
    (msgs : List RawMessage) : HistSys :=
  let s1 : HistSys :=
    { s with queue := s.queue ++ (msgs.filter (fun m => m.hasContent)).map (fun m => (orgId, m)) }
  if historyBatchSize ≤ s1.queue.length then histFlush nowMs s1 else s1

/-! ## Worker sendMessage -/

/-- TTL of a pending-echo entry, in milliseconds. -/
def echoTtlMs : Nat := 30000

/-- Result of the worker sendMessage: the pending-echo set afterwards (ids
paired with their scheduled expiry), the propagated result, and how many
times the underlying socket send was attempted. -/
structure SendOutcome where
  echo : List (String × Nat)
  result : Except String String
  sendAttempts : Nat
  deriving Repr

/-- Worker sendMessage: normalize the recipient to a jid, add the generated
message id to the pending-echo set with its 30s expiry BEFORE sending, then
send exactly once; on failure remove the id from the set and rethrow. -/
def workerSendMessage (now : Nat) (echo : List (String × Nat)) (msgId : String)
    (dest : String) (sendOk : Bool) : SendOutcome :=
  let jid := if dest.contains '@' then dest else dest ++ "@s.whatsapp.net"
  let echo1 := echo ++ [(msgId, now + echoTtlMs)]
  if sendOk then { echo := echo1, result := .ok jid, sendAttempts := 1 }
  else
    { echo := echo1.filter (fun e => e.1 != msgId)
      result := .error "send failed"
      sendAttempts := 1 }

/-! ## requestPairingCode retry loop (legacy integration) -/

/-- What one attempt of the retry loop observes: the bounded 20s wait for a
qr/connected signal timed out, the pairing request was rejected, or a code
came back. -/
inductive AttemptOutcome
  | connTimeout
  | rejected (msg : String)
  | success (code : String)
  deriving DecidableEq, Repr

/-- Error message of an attempt outcome as the catch block sees it. -/
def attemptErrMsg : AttemptOutcome → String
  | .connTimeout => "Connection timeout"
  | .rejected m => m
  | .success _ => ""

/-- Fixed attempt budget of requestPairingCode. -/
def pairingMaxRetries : Nat := 3

/-- The retry loop of requestPairingCode: before every attempt after the
first, delete the session and wait attempt * 1000 ms, then recreate the
session; an attempt that throws is retried until attempt equals maxRetries,
at which point the failure is surfaced. Returns the list of waits performed
(in order) and the propagated result. -/
def pairingRun (outcomes : Nat → AttemptOutcome) (attempt : Nat) :
    Nat → List Nat → List Nat × Except String String
  | 0, delays => (delays, .error "Failed to get pairing code")
  | remaining + 1, delays =>
      let delays1 := if 1 < attempt then delays ++ [attempt * 1000] else delays
      match outcomes attempt with
      | .success c => (delays1, .ok c)
      | o =>
          if attempt == pairingMaxRetries then
            (delays1, .error ("Failed after 3 attempts: " ++ attemptErrMsg o))
          else pairingRun outcomes (attempt + 1) remaining delays1

/-- requestPairingCode of the legacy integration, abstracted over what each
attempt observes. -/
def requestPairingCodeRun (outcomes : Nat → AttemptOutcome) :
    List Nat × Except String String :=
  pairingRun outcomes 1 pairingMaxRetries []

/-! ## Concrete sample values used to instantiate the theorems -/

/-- A clean environment: no injected rejection, the AI answers "reply". -/
def sampleEnv : Env := { failAt := none, aiFinalResponse := some "reply", now := 7 }

/-- Storage holding one organization and nothing else. -/
def sampleDb : Db := { orgs := ["org1"], leads := [], messages := [], nextLeadId := 0 }

/-- A counterpart text event carrying external id W1. -/
def sampleInp : MsgInput :=
  { orgId := "org1", sender := "555@s.whatsapp.net", text := "hi"
    isFromMe := false, name := "Bob", waId := some "W1", senderPn := none }

/-- The same event flagged as coming from the own device. -/
def sampleInpMe : MsgInput := { sampleInp with isFromMe := true }

/-- An existing lead for the sample counterpart, automation active. -/
def sampleLead : Lead :=
  { id := 3, orgId := "org1", phone := "555", status := "new"
    ai_status := AiStatus.active, name := some "Bob", real_phone := none }

/-- Storage holding the organization and the active lead. -/
def sampleDbLead : Db :=
  { orgs := ["org1"], leads := [sampleLead], messages := [], nextLeadId := 4 }

/-- Storage where a message with external id W1 is already recorded. -/
def sampleDbDup : Db :=
  { orgs := ["org1"], leads := [sampleLead]
    messages := [{ organization_id := "org1", lead_id := 3, role := Role.user
                   content := "old", mtype := "text"
                   whatsapp_message_id := some "W1" }]
    nextLeadId := 4 }

/-- An own-device event whose id sits in the pending-echo set. -/
def echoMsg : RawMessage :=
  { key := { remoteJid := some "555@s.whatsapp.net", fromMe := true, id := some "3EB0AA" }
    pushName := some "Op", conversation := some "done", extendedText := none
    imageCaption := none, hasContent := true, timestamp := some (.num 1700000000) }

/-- A counterpart live event timestamped 1700000000 unix seconds. -/
def staleLiveMsg : RawMessage :=
  { key := { remoteJid := some "972555000@s.whatsapp.net", fromMe := false, id := some "OLD1" }
    pushName := none, conversation := some "hello", extendedText := none
    imageCaption := none, hasContent := true, timestamp := some (.num 1700000000) }

/-- A wall clock 48 hours after the timestamp of staleLiveMsg, in ms. -/
def staleNow : Nat := (1700000000 + 48 * 60 * 60) * 1000

/-- A well-formed historical event with body and extractable text. -/
def histSampleEvent : RawMessage :=
  { key := { remoteJid := some "5@x", fromMe := false, id := some "E1" }
    pushName := none, conversation := some "hi", extendedText := none
    imageCaption := none, hasContent := true, timestamp := some (.num 1700000000) }

/-- A HistoryManager state caught in the middle of a flush. -/
def histBusySys : HistSys :=
  { queue := [("org", histSampleEvent)], processing := true, leadCache := []
    leads := [], nextLead := 0, batchInserts := [] }

/-! ## Basic lemmas -/

/-- In a clean environment no injected rejection fires. -/
theorem fails_of_clean {env : Env} (h : env.failAt = none) (fp : FailPoint) :
    env.fails fp = false := by
  simp [Env.fails, h]

@[simp]
theorem active_beq_paused : (AiStatus.active == AiStatus.paused) = false := rfl

@[simp]
theorem paused_beq_paused : (AiStatus.paused == AiStatus.paused) = true := rfl

/-- A successful lead lookup returns a row matching the key. -/
theorem findLead_eq {ls : List Lead} {o p : String} {lead : Lead}
    (h : findLead ls o p = some lead) : lead.orgId = o ∧ lead.phone = p := by
  have hm := List.find?_some h
  simp only [Bool.and_eq_true, beq_iff_eq] at hm
  exact hm

/-- Appending one message changes the id count by its own match. -/
theorem countWithId_append (ms : List Message) (m : Message) (wid : String) :
    countWithId (ms ++ [m]) wid =
      countWithId ms wid + (if m.whatsapp_message_id == some wid then 1 else 0) := by
  simp only [countWithId, List.filter_append, List.length_append]
  by_cases h : (m.whatsapp_message_id == some wid) = true
  · simp [List.filter, h]
  · simp only [Bool.not_eq_true] at h
    simp [List.filter, h]

/-- A negative dedup query means the id count is zero. -/
theorem countWithId_zero {ms : List Message} {wid : String}
    (h : messageIdExists ms wid = false) : countWithId ms wid = 0 := by
  unfold messageIdExists at h
  rw [List.any_eq_false] at h
  simp only [countWithId, List.length_eq_zero, List.filter_eq_nil_iff]
  intro a ha
  exact h a ha

/-- A positive id count means the dedup query hits. -/
theorem messageIdExists_of_count {ms : List Message} {wid : String}
    (h : 0 < countWithId ms wid) : messageIdExists ms wid = true := by
  unfold countWithId at h
  obtain ⟨m, hm⟩ := List.exists_mem_of_length_pos h
  have hmf := List.mem_filter.mp hm
  unfold messageIdExists
  exact List.any_eq_true.mpr ⟨m, hmf.1, hmf.2⟩

/-- Unfolding equation of find? on a cons cell. -/
theorem find?_cons_eq {α : Type} (f : α → Bool) (a : α) (l : List α) :
    List.find? f (a :: l) = if f a then some a else List.find? f l := by
  by_cases h : f a <;> simp [List.find?, h]

/-- Rewriting the found row by its id makes the replacement the row the next
lookup returns, provided the replacement still matches the key. -/
theorem findLead_updateLead {ls : List Lead} {o p : String} {lead l2 : Lead}
    (hfind : findLead ls o p = some lead)
    (ho : l2.orgId = o) (hp : l2.phone = p) :
    findLead (updateLead ls lead.id (fun _ => l2)) o p = some l2 := by
  induction ls with
  | nil => simp [findLead] at hfind
  | cons x rest ih =>
      unfold findLead at hfind ⊢
      unfold updateLead
      rw [List.map_cons]
      rw [find?_cons_eq] at hfind
      rw [find?_cons_eq]
      by_cases hx : (x.orgId == o && x.phone == p) = true
      · rw [if_pos hx] at hfind
        have hxl : x = lead := by injection hfind
        subst hxl
        rw [if_pos (beq_self_eq_true x.id)]
        rw [if_pos (by simp [ho, hp])]
      · rw [if_neg hx] at hfind
        by_cases hid : (x.id == lead.id) = true
        · rw [if_pos hid, if_pos (by simp [ho, hp])]
        · rw [if_neg hid, if_neg hx]
          exact ih hfind

/-- The mutation of an existing lead keeps the organization id. -/
theorem resolveExistingLead_orgId (inp : MsgInput) (lead : Lead) :
    (resolveExistingLead inp lead).orgId = lead.orgId := by
  unfold resolveExistingLead
  dsimp only
  repeat' split
  all_goals rfl

/-- The mutation of an existing lead keeps the phone key. -/
theorem resolveExistingLead_phone (inp : MsgInput) (lead : Lead) :
    (resolveExistingLead inp lead).phone = lead.phone := by
  unfold resolveExistingLead
  dsimp only
  repeat' split
  all_goals rfl

/-- The mutation pauses the AI exactly on an own-device message. -/
theorem resolveExistingLead_ai_status (inp : MsgInput) (lead : Lead) :
    (resolveExistingLead inp lead).ai_status =
      if inp.isFromMe then AiStatus.paused else lead.ai_status := by
  unfold resolveExistingLead
  dsimp only
  repeat' split
  all_goals simp_all [beq_iff_eq]

/-- A non-empty incoming name ends up stored on the mutated lead. -/
theorem resolveExistingLead_name (inp : MsgInput) (lead : Lead)
    (hn : inp.name ≠ "") :
    (resolveExistingLead inp lead).name = some inp.name := by
  unfold resolveExistingLead
  dsimp only
  repeat' split
  all_goals simp_all [beq_iff_eq]

/-- A truthy resolved real phone ends up stored on the mutated lead. -/
theorem resolveExistingLead_real_phone (inp : MsgInput) (lead : Lead)
    {rp : String} (hr : realPhoneOf inp.senderPn = some rp) (hne : rp ≠ "") :
    (resolveExistingLead inp lead).real_phone = some rp := by
  unfold resolveExistingLead
  rw [hr]
  dsimp only
  repeat' split
  all_goals simp_all [beq_iff_eq]

/-! ## Phase lemmas for the inbound pipeline -/

/-- In a clean environment the save phase succeeds, touches only the
messages list, and appends the triggering message and possibly an AI reply. -/
theorem savePhase_clean_spec (env : Env) (db : Db) (inp : MsgInput) (lead : Lead)
    (h : env.failAt = none) :
    ∃ r, savePhase env db inp lead = .ok r ∧
      r.db.orgs = db.orgs ∧ r.db.leads = db.leads ∧
      r.db.nextLeadId = db.nextLeadId ∧
      (r.db.messages = db.messages ++ [savedMsg inp lead] ∨
       ∃ rep, env.aiFinalResponse = some rep ∧
         r.db.messages = db.messages ++ [savedMsg inp lead, aiMsg env inp lead rep]) := by
  unfold savePhase
  simp only [fails_of_clean h, Bool.false_eq_true, if_false]
  cases hf : inp.isFromMe
  · cases hs : lead.ai_status
    · cases ha : env.aiFinalResponse with
      | none =>
          simp only [Bool.false_eq_true, if_false, active_beq_paused]
          exact ⟨_, rfl, rfl, rfl, rfl, Or.inl rfl⟩
      | some rep =>
          simp only [Bool.false_eq_true, if_false, active_beq_paused]
          refine ⟨_, rfl, rfl, rfl, rfl, Or.inr ⟨rep, rfl, ?_⟩⟩
          simp
    · simp only [Bool.false_eq_true, if_false, paused_beq_paused, if_true]
      exact ⟨_, rfl, rfl, rfl, rfl, Or.inl rfl⟩
  · simp only [if_true]
    exact ⟨_, rfl, rfl, rfl, rfl, Or.inl rfl⟩

/-- The save phase never returns ok on a missing-org or dedup exit: when it
reports that the AI was invoked, the triggering message came from the
counterpart and the lead in hand had automation active. -/
theorem savePhase_gate {env : Env} {db : Db} {inp : MsgInput} {lead : Lead}
    {r : PipeResult} (hok : savePhase env db inp lead = .ok r)
    (hai : r.aiInvoked = true) :
    inp.isFromMe = false ∧ lead.ai_status = AiStatus.active := by
  unfold savePhase at hok
  repeat' split at hok
  all_goals try dsimp only at hok
  all_goals cases hok
  all_goals cases hs : lead.ai_status <;> simp_all

/-- When the save phase returns ok without invoking the AI, nothing was sent
and exactly the triggering message was appended. -/
theorem savePhase_noReply {env : Env} {db : Db} {inp : MsgInput} {lead : Lead}
    {r : PipeResult} (hok : savePhase env db inp lead = .ok r)
    (hai : r.aiInvoked = false) :
    r.sentText = none ∧ r.db.messages = db.messages ++ [savedMsg inp lead] := by
  unfold savePhase at hok
  repeat' split at hok
  all_goals try dsimp only at hok
  all_goals cases hok
  all_goals simp_all

/-- Dedup hit: a clean run with a truthy external id already in storage
returns the skip result and leaves storage untouched. -/
theorem dedupPhase_hit {env : Env} (db : Db) (inp : MsgInput) (lead : Lead)
    {wid : String} (h : env.failAt = none) (hw : inp.waId = some wid)
    (hne : wid ≠ "") (hdup : messageIdExists db.messages wid = true) :
    dedupPhase env db inp lead = .ok ⟨db, .dedupSkipped, false, none⟩ := by
  unfold dedupPhase
  rw [hw]
  dsimp only
  rw [if_neg (by simp [hne])]
  simp [fails_of_clean h, hdup]

/-- Dedup miss: a clean run with a fresh truthy external id proceeds to the
save phase unchanged. -/
theorem dedupPhase_miss {env : Env} (db : Db) (inp : MsgInput) (lead : Lead)
    {wid : String} (h : env.failAt = none) (hw : inp.waId = some wid)
    (hne : wid ≠ "") (hmiss : messageIdExists db.messages wid = false) :
    dedupPhase env db inp lead = savePhase env db inp lead := by
  unfold dedupPhase
  rw [hw]
  dsimp only
  rw [if_neg (by simp [hne])]
  simp [fails_of_clean h, hmiss]

/-- In a clean environment the dedup phase succeeds, reads and writes no
lead, and either skips on a genuine dedup hit with storage untouched, or
(when the external id is absent, falsy or fresh) behaves as the save phase. -/
theorem dedupPhase_clean_spec (env : Env) (db : Db) (inp : MsgInput) (lead : Lead)
    (h : env.failAt = none) :
    ∃ r, dedupPhase env db inp lead = .ok r ∧
      r.db.orgs = db.orgs ∧ r.db.leads = db.leads ∧
      r.db.nextLeadId = db.nextLeadId ∧
      (((∃ wid1, inp.waId = some wid1 ∧ wid1 ≠ "" ∧
           messageIdExists db.messages wid1 = true) ∧
         r.db.messages = db.messages ∧ r.exit = .dedupSkipped ∧
         r.aiInvoked = false ∧ r.sentText = none) ∨
       ((∀ wid1, inp.waId = some wid1 → wid1 ≠ "" →
           messageIdExists db.messages wid1 = false) ∧
        (r.db.messages = db.messages ++ [savedMsg inp lead] ∨
         ∃ rep, env.aiFinalResponse = some rep ∧
           r.db.messages = db.messages ++ [savedMsg inp lead, aiMsg env inp lead rep]))) := by
  unfold dedupPhase
  cases hw : inp.waId with
  | none =>
      obtain ⟨r, hr, h1, h2, h3, h4⟩ := savePhase_clean_spec env db inp lead h
      exact ⟨r, hr, h1, h2, h3, Or.inr ⟨fun wid1 hc => by simp at hc, h4⟩⟩
  | some wid =>
      dsimp only
      by_cases hne : wid = ""
      · rw [if_pos (by simp [hne])]
        obtain ⟨r, hr, h1, h2, h3, h4⟩ := savePhase_clean_spec env db inp lead h
        refine ⟨r, hr, h1, h2, h3, Or.inr ⟨?_, h4⟩⟩
        intro wid1 hc hne1
        injection hc with hc1
        subst hc1
        exact absurd hne hne1
      · rw [if_neg (by simp [hne])]
        simp only [fails_of_clean h, Bool.false_eq_true, if_false]
        by_cases hdup : messageIdExists db.messages wid = true
        · rw [if_pos hdup]
          exact ⟨_, rfl, rfl, rfl, rfl,
            Or.inl ⟨⟨wid, rfl, hne, hdup⟩, rfl, rfl, rfl, rfl⟩⟩
        · rw [if_neg hdup]
          obtain ⟨r, hr, h1, h2, h3, h4⟩ := savePhase_clean_spec env db inp lead h
          refine ⟨r, hr, h1, h2, h3, Or.inr ⟨?_, h4⟩⟩
          intro wid1 hc hne1
          injection hc with hc1
          subst hc1
          simp only [Bool.not_eq_true] at hdup
          exact hdup

/-- If the dedup phase returns ok with the AI invoked, the save phase ran on
a counterpart message against an active lead. -/
theorem dedupPhase_gate {env : Env} {db : Db} {inp : MsgInput} {lead : Lead}
    {r : PipeResult} (hok : dedupPhase env db inp lead = .ok r)
    (hai : r.aiInvoked = true) :
    inp.isFromMe = false ∧ lead.ai_status = AiStatus.active := by
  unfold dedupPhase at hok
  repeat' split at hok
  all_goals first
    | exact savePhase_gate hok hai
    | (cases hok <;> simp_all)

/-- If the dedup phase returns ok without invoking the AI, nothing was sent
and at most the triggering message was appended. -/
theorem dedupPhase_noReply {env : Env} {db : Db} {inp : MsgInput} {lead : Lead}
    {r : PipeResult} (hok : dedupPhase env db inp lead = .ok r)
    (hai : r.aiInvoked = false) :
    r.sentText = none ∧
      (r.db.messages = db.messages ∨
       r.db.messages = db.messages ++ [savedMsg inp lead]) := by
  unfold dedupPhase at hok
  repeat' split at hok
  all_goals first
    | exact (savePhase_noReply hok hai).imp id Or.inr
    | (cases hok <;> exact ⟨rfl, Or.inl rfl⟩)

/-- A clean run with the organization present and no stored lead for the
counterpart behaves as the dedup phase on the freshly inserted lead. -/
theorem pipelineCore_newLead {env : Env} {db : Db} {inp : MsgInput}
    (h : env.failAt = none) (horg : db.orgs.contains inp.orgId = true)
    (hfind : findLead db.leads inp.orgId (jidUser inp.sender) = none) :
    pipelineCore env db inp =
      dedupPhase env
        { db with leads := db.leads ++ [newLeadOf db inp (jidUser inp.sender)]
                  nextLeadId := db.nextLeadId + 1 }
        inp (newLeadOf db inp (jidUser inp.sender)) := by
  unfold pipelineCore
  simp only [fails_of_clean h, horg, Bool.not_true, Bool.false_eq_true,
    if_false, hfind]

/-- A clean run with the organization present and a stored lead for the
counterpart behaves as the dedup phase on the mutated lead. -/
theorem pipelineCore_existingLead {env : Env} {db : Db} {inp : MsgInput}
    {lead : Lead}
    (h : env.failAt = none) (horg : db.orgs.contains inp.orgId = true)
    (hfind : findLead db.leads inp.orgId (jidUser inp.sender) = some lead) :
    pipelineCore env db inp =
      dedupPhase env
        { db with leads := updateLead db.leads lead.id
                             (fun _ => resolveExistingLead inp lead) }
        inp (resolveExistingLead inp lead) := by
  unfold pipelineCore
  simp only [fails_of_clean h, horg, Bool.not_true, Bool.false_eq_true,
    if_false, hfind]

/-- Full characterization of a clean run with the organization present:
the run succeeds, the catch is not taken, the organizations are untouched,
the lead store reflects exactly the resolution phase (insert of the new lead
or the in-place mutation of the found lead), and the messages list is either
untouched on a genuine dedup hit or extended by the triggering message and
possibly the AI reply. -/
theorem pipeline_clean_run (env : Env) (db : Db) (inp : MsgInput)
    (h : env.failAt = none) (horg : db.orgs.contains inp.orgId = true) :
    ∃ lead1 r, pipelineCore env db inp = .ok r ∧
      handleIncomingMessage env db inp = (r.db, Outcome.ok r.exit) ∧
      r.db.orgs = db.orgs ∧
      (findLead db.leads inp.orgId (jidUser inp.sender) = none →
         lead1 = newLeadOf db inp (jidUser inp.sender) ∧
         r.db.leads = db.leads ++ [lead1]) ∧
      (∀ lead0, findLead db.leads inp.orgId (jidUser inp.sender) = some lead0 →
         lead1 = resolveExistingLead inp lead0 ∧
         r.db.leads = updateLead db.leads lead0.id (fun _ => lead1)) ∧
      (((∃ wid1, inp.waId = some wid1 ∧ wid1 ≠ "" ∧
           messageIdExists db.messages wid1 = true) ∧
         r.db.messages = db.messages ∧ r.exit = .dedupSkipped ∧
         r.aiInvoked = false ∧ r.sentText = none) ∨
       ((∀ wid1, inp.waId = some wid1 → wid1 ≠ "" →
           messageIdExists db.messages wid1 = false) ∧
        (r.db.messages = db.messages ++ [savedMsg inp lead1] ∨
         ∃ rep, env.aiFinalResponse = some rep ∧
           r.db.messages = db.messages ++ [savedMsg inp lead1, aiMsg env inp lead1 rep]))) := by
  cases hfind : findLead db.leads inp.orgId (jidUser inp.sender) with
  | none =>
      have heq := pipelineCore_newLead h horg hfind
      obtain ⟨r, hr, h1, h2, h3, h4⟩ :=
        dedupPhase_clean_spec env
          { db with leads := db.leads ++ [newLeadOf db inp (jidUser inp.sender)]
                    nextLeadId := db.nextLeadId + 1 }
          inp (newLeadOf db inp (jidUser inp.sender)) h
      refine ⟨newLeadOf db inp (jidUser inp.sender), r,
        by rw [heq, hr], ?_, h1, ?_, ?_, h4⟩
      · unfold handleIncomingMessage
        rw [heq, hr]
      · exact fun _ => ⟨rfl, h2⟩
      · intro lead0 hc
        simp at hc
  | some lead0 =>
      have heq := pipelineCore_existingLead h horg hfind
      obtain ⟨r, hr, h1, h2, h3, h4⟩ :=
        dedupPhase_clean_spec env
          { db with leads := updateLead db.leads lead0.id
                      (fun _ => resolveExistingLead inp lead0) }
          inp (resolveExistingLead inp lead0) h
      refine ⟨resolveExistingLead inp lead0, r,
        by rw [heq, hr], ?_, h1, ?_, ?_, h4⟩
      · unfold handleIncomingMessage
        rw [heq, hr]
      · intro hc
        simp at hc
      · intro lead2 hc
        injection hc with hc1
        subst hc1
        exact ⟨rfl, h2⟩

/-! ## Claim theorems -/

/-- C2: the specification demands that two concurrent getOrCreateSession
calls for the same tenant never both proceed to build a handle. The code has
no serialization: under the schedule where both calls pass the sessions.has
check before either registers, both build a socket (handles 0 and 1), the
second registration overwrites the first, and the first call holds an
orphaned live handle. A serialized schedule builds exactly one handle. -/
theorem C2_getOrCreateSession_race :
    raceRun raceInit [false, true, false, true] =
      { session := some 1, nextHandle := 2, built := [0, 1]
        c1 := .finished 0, c2 := .finished 1 } ∧
    raceRun raceInit [false, false, true] =
      { session := some 0, nextHandle := 1, built := [0]
        c1 := .finished 0, c2 := .finished 0 } :=
  ⟨rfl, rfl⟩

/-- C8: in the retry loop of requestPairingCode the wait before attempt n is
n * 1000 ms, so the waits actually performed are 2000 ms and 3000 ms, not the
1s, 2s, 3s linear backoff stated by the claim and by the comment in the code.
The loop does retry up to 3 attempts, surfaces failure only after the third,
and reports the bounded connection wait as a connection-timeout error. -/
theorem C8_pairing_retry_trace :
    requestPairingCodeRun (fun _ => .rejected "Connection Failure") =
      ([2000, 3000], .error "Failed after 3 attempts: Connection Failure") ∧
    requestPairingCodeRun (fun _ => .connTimeout) =
      ([2000, 3000], .error "Failed after 3 attempts: Connection timeout") ∧
    requestPairingCodeRun
        (fun a => if a == 1 then .rejected "transient" else .success "KEY9") =
      ([2000], .ok "KEY9") ∧
    requestPairingCodeRun (fun _ => .success "KEY1") = ([], .ok "KEY1") :=
  ⟨rfl, rfl, rfl, rfl⟩

/-- C9: for every input and every injected rejection, the top level handler
returns normally: an ok pipeline run is returned as an ok outcome, and a
rejection anywhere inside the pipeline is returned as a logged error with the
storage reached so far — the outcome type has no propagated exception. The
second conjunct shows rejections genuinely occur inside the pipeline. -/
theorem C9_top_level_catch :
    (∀ env db inp,
      (∃ r, pipelineCore env db inp = .ok r ∧
            handleIncomingMessage env db inp = (r.db, Outcome.ok r.exit)) ∨
      (∃ d fp, pipelineCore env db inp = .error (d, fp) ∧
            handleIncomingMessage env db inp = (d, Outcome.loggedError fp))) ∧
    (∃ env db inp d fp, pipelineCore env db inp = .error (d, fp)) := by
  constructor
  · intro env db inp
    cases h : pipelineCore env db inp with
    | ok r => exact Or.inl ⟨r, rfl, by simp [handleIncomingMessage, h]⟩
    | error e =>
        obtain ⟨d, fp⟩ := e
        exact Or.inr ⟨d, fp, rfl, by simp [handleIncomingMessage, h]⟩
  · exact ⟨{ failAt := some .orgLookup, aiFinalResponse := none, now := 0 },
      { orgs := [], leads := [], messages := [], nextLeadId := 0 },
      { orgId := "o", sender := "s", text := "t", isFromMe := false
        name := "", waId := none, senderPn := none },
      _, _, rfl⟩

set_option maxRecDepth 100000 in
set_option maxHeartbeats 1000000 in
/-- C6: the HistoryManager flushes on reaching the batch threshold 100 or on
the 2000 ms timer; flush is a no-op while a flush is in progress or when the
queue is empty; queueing 250 well-formed historical events produces exactly
three flush cycles taking 100, 100 and 50 events, each performing one bulk
insert of that size, and a fourth flush is a no-op. -/
theorem C6_history_batcher :
    historyBatchSize = 100 ∧ historyFlushIntervalMs = 2000 ∧
    (∀ nowMs s, s.processing = true → histFlush nowMs s = s) ∧
    (∀ nowMs s, s.queue = [] → histFlush nowMs s = s) ∧
    (let s1 := histQueueMessages 0 histInit "org" (List.replicate 250 histSampleEvent)
     let s2 := histFlush 0 s1
     let s3 := histFlush 0 s2
     s1.queue.length = 150 ∧ s1.batchInserts = [100] ∧
     s2.queue.length = 50 ∧ s2.batchInserts = [100, 100] ∧
     s3.queue = [] ∧ s3.batchInserts = [100, 100, 50] ∧
     histFlush 0 s3 = s3) := by
  refine ⟨rfl, rfl, ?_, ?_, ?_⟩
  · intro nowMs s hs
    unfold histFlush
    rw [if_pos (by simp [hs])]
  · intro nowMs s hs
    unfold histFlush
    rw [if_pos (by simp [hs])]
  · exact ⟨rfl, rfl, rfl, rfl, rfl, rfl, rfl⟩

/-- C6 witness: the no-op guards applied at concrete states. -/
theorem C6_history_batcher_witness :
    histFlush 0 histBusySys = histBusySys ∧
    histFlush 0 histInit = histInit :=
  ⟨C6_history_batcher.2.2.1 0 histBusySys rfl,
   C6_history_batcher.2.2.2.1 0 histInit rfl⟩

/-- C7: the worker sendMessage registers the generated delivery id in the
pending-echo set with its 30 s expiry before sending; a send failure removes
exactly that id again (when the id is fresh the set is restored verbatim),
propagates the error, and attempts the socket send exactly once. -/
theorem C7_send_echo_registration (now : Nat) (echo : List (String × Nat))
    (msgId dest : String) :
    echoTtlMs = 30000 ∧
    (workerSendMessage now echo msgId dest true).echo
      = echo ++ [(msgId, now + echoTtlMs)] ∧
    (workerSendMessage now echo msgId dest true).sendAttempts = 1 ∧
    (workerSendMessage now echo msgId dest false).sendAttempts = 1 ∧
    (msgId ∉ echo.map Prod.fst →
       workerSendMessage now echo msgId dest false =
         { echo := echo, result := .error "send failed", sendAttempts := 1 }) := by
  refine ⟨rfl, by simp [workerSendMessage], by simp [workerSendMessage],
    by simp [workerSendMessage], ?_⟩
  intro hfresh
  have hfilter :
      (echo ++ [(msgId, now + echoTtlMs)]).filter (fun e => e.1 != msgId) = echo := by
    rw [List.filter_append, List.filter_eq_self.mpr, List.filter_cons]
    · rw [if_neg (by simp), List.filter_nil, List.append_nil]
    · intro e he
      simp only [bne_iff_ne, ne_eq]
      intro hcontra
      exact hfresh (List.mem_map.mpr ⟨e, he, hcontra⟩)
  unfold workerSendMessage
  rw [if_neg (by simp)]
  try dsimp only
  rw [hfilter]

/-- C7 witness: a failed send against a fresh id restores the echo set. -/
theorem C7_send_echo_registration_witness :
    workerSendMessage 100 [("A", 5)] "M1" "972555" false =
      { echo := [("A", 5)], result := .error "send failed", sendAttempts := 1 } :=
  (C7_send_echo_registration 100 [("A", 5)] "M1" "972555").2.2.2.2 (by decide)

/-- C1: a clean delivery of an event with a fresh, truthy external id into an
existing organization persists exactly one message carrying that id (the AI
reply carries its distinct synthetic ai- id); delivering the same event a
second time hits the dedup check and persists nothing, so after two
deliveries exactly one message with that id is stored. -/
theorem C1_dedup_idempotence (env1 env2 : Env) (db : Db) (inp : MsgInput)
    (wid : String)
    (h1 : env1.failAt = none) (h2 : env2.failAt = none)
    (hw : inp.waId = some wid) (hne : wid ≠ "")
    (horg : db.orgs.contains inp.orgId = true)
    (hfresh : messageIdExists db.messages wid = false)
    (hai : "ai-" ++ toString env1.now ≠ wid) :
    countWithId (handleIncomingMessage env1 db inp).1.messages wid = 1 ∧
    (handleIncomingMessage env2 (handleIncomingMessage env1 db inp).1 inp).1.messages
      = (handleIncomingMessage env1 db inp).1.messages := by
  obtain ⟨lead1, r, hok, hrun, horgs, -, -, hmsgs⟩ :=
    pipeline_clean_run env1 db inp h1 horg
  rw [hrun]
  dsimp only
  have hcount : countWithId r.db.messages wid = 1 := by
    rcases hmsgs with ⟨⟨wid1, hw1, hne1, hdup1⟩, -, -, -, -⟩ | ⟨-, hm | ⟨rep, hrep, hm⟩⟩
    · rw [hw] at hw1
      injection hw1 with hww
      subst hww
      rw [hdup1] at hfresh
      simp at hfresh
    · rw [hm, countWithId_append, countWithId_zero hfresh]
      simp [savedMsg, hw]
    · rw [hm,
        show db.messages ++ [savedMsg inp lead1, aiMsg env1 inp lead1 rep]
          = (db.messages ++ [savedMsg inp lead1]) ++ [aiMsg env1 inp lead1 rep] by simp,
        countWithId_append, countWithId_append, countWithId_zero hfresh]
      simp [savedMsg, aiMsg, hw, hai]
  refine ⟨hcount, ?_⟩
  have horg2 : r.db.orgs.contains inp.orgId = true := by rw [horgs]; exact horg
  obtain ⟨lead2, r2, hok2, hrun2, -, -, -, hmsgs2⟩ :=
    pipeline_clean_run env2 r.db inp h2 horg2
  rw [hrun2]
  dsimp only
  have hex : messageIdExists r.db.messages wid = true :=
    messageIdExists_of_count (by rw [hcount]; exact Nat.one_pos)
  rcases hmsgs2 with ⟨-, hm2, -, -, -⟩ | ⟨hmiss2, -⟩
  · exact hm2
  · exact absurd hex (by simp [hmiss2 wid hw hne])

/-- C1 witness: the sample event delivered twice yields one stored message
with id W1, the second delivery changing nothing. -/
theorem C1_dedup_idempotence_witness :
    countWithId (handleIncomingMessage sampleEnv sampleDb sampleInp).1.messages "W1" = 1 ∧
    (handleIncomingMessage sampleEnv
        (handleIncomingMessage sampleEnv sampleDb sampleInp).1 sampleInp).1.messages
      = (handleIncomingMessage sampleEnv sampleDb sampleInp).1.messages :=
  C1_dedup_idempotence sampleEnv sampleEnv sampleDb sampleInp "W1"
    rfl rfl rfl (by decide) (by decide) rfl (by decide)

/-- C4: on a clean run against an existing organization, an own-device
(human-operator, not echo) message on a stored lead leaves that lead stored
with automation paused; the AI responder is invoked only when the triggering
message is from the counterpart and the stored lead (if any) had automation
active; and when the responder is not invoked nothing is sent and at most
the triggering message itself is persisted. -/
theorem C4_takeover_and_automation_gate (env : Env) (db : Db) (inp : MsgInput)
    (h : env.failAt = none) (horg : db.orgs.contains inp.orgId = true) :
    (∀ lead0, findLead db.leads inp.orgId (jidUser inp.sender) = some lead0 →
       inp.isFromMe = true →
       findLead (handleIncomingMessage env db inp).1.leads inp.orgId (jidUser inp.sender)
         = some (resolveExistingLead inp lead0) ∧
       (resolveExistingLead inp lead0).ai_status = AiStatus.paused) ∧
    (∀ r, pipelineCore env db inp = .ok r → r.aiInvoked = true →
       inp.isFromMe = false ∧
       ∀ lead0, findLead db.leads inp.orgId (jidUser inp.sender) = some lead0 →
         lead0.ai_status = AiStatus.active) ∧
    (∀ r, pipelineCore env db inp = .ok r → r.aiInvoked = false →
       r.sentText = none ∧
       (r.db.messages = db.messages ∨
        ∃ lead1, r.db.messages = db.messages ++ [savedMsg inp lead1])) := by
  refine ⟨?_, ?_, ?_⟩
  · intro lead0 hfind hme
    obtain ⟨lead1, r, hok, hrun, -, -, hsome, -⟩ :=
      pipeline_clean_run env db inp h horg
    obtain ⟨hl1, hl2⟩ := hsome lead0 hfind
    subst hl1
    rw [hrun]
    dsimp only
    rw [hl2]
    obtain ⟨ho, hp⟩ := findLead_eq hfind
    constructor
    · exact findLead_updateLead hfind
        (by rw [resolveExistingLead_orgId, ho])
        (by rw [resolveExistingLead_phone, hp])
    · rw [resolveExistingLead_ai_status, if_pos hme]
  · intro r hok hai
    cases hfind : findLead db.leads inp.orgId (jidUser inp.sender) with
    | none =>
        have heq := pipelineCore_newLead h horg hfind
        rw [heq] at hok
        obtain ⟨hme, -⟩ := dedupPhase_gate hok hai
        exact ⟨hme, fun lead0 hc => Option.noConfusion hc⟩
    | some lead0 =>
        have heq := pipelineCore_existingLead h horg hfind
        rw [heq] at hok
        obtain ⟨hme, hactive⟩ := dedupPhase_gate hok hai
        refine ⟨hme, fun lead2 hc => ?_⟩
        injection hc with hc1
        subst hc1
        rw [resolveExistingLead_ai_status, if_neg (by simp [hme])] at hactive
        exact hactive
  · intro r hok hai
    cases hfind : findLead db.leads inp.orgId (jidUser inp.sender) with
    | none =>
        have heq := pipelineCore_newLead h horg hfind
        rw [heq] at hok
        obtain ⟨hs, hm⟩ := dedupPhase_noReply hok hai
        exact ⟨hs, hm.imp id (fun hmm => ⟨_, hmm⟩)⟩
    | some lead0 =>
        have heq := pipelineCore_existingLead h horg hfind
        rw [heq] at hok
        obtain ⟨hs, hm⟩ := dedupPhase_noReply hok hai
        exact ⟨hs, hm.imp id (fun hmm => ⟨_, hmm⟩)⟩

/-- C4 witness: the sample operator message on the active sample lead leaves
it stored as paused. -/
theorem C4_takeover_and_automation_gate_witness :
    findLead (handleIncomingMessage sampleEnv sampleDbLead sampleInpMe).1.leads
        sampleInpMe.orgId (jidUser sampleInpMe.sender)
      = some (resolveExistingLead sampleInpMe sampleLead) ∧
    (resolveExistingLead sampleInpMe sampleLead).ai_status = AiStatus.paused :=
  (C4_takeover_and_automation_gate sampleEnv sampleDbLead sampleInpMe
      rfl (by decide)).1 sampleLead (by decide) rfl

/-- C10: on a clean run, a duplicate event (truthy external id already in
storage, organization present) is discarded with the messages list untouched,
but only after the lead phase has run: a missing lead is still created, and
an existing lead still receives the pause flip on an operator message, the
display-name update and the real-phone reconciliation. -/
theorem C10_dedup_after_lead_mutation (env : Env) (db : Db) (inp : MsgInput)
    (wid : String) (h : env.failAt = none) (hw : inp.waId = some wid)
    (hne : wid ≠ "") (horg : db.orgs.contains inp.orgId = true)
    (hdup : messageIdExists db.messages wid = true) :
    (handleIncomingMessage env db inp).2 = Outcome.ok PipeExit.dedupSkipped ∧
    (handleIncomingMessage env db inp).1.messages = db.messages ∧
    (findLead db.leads inp.orgId (jidUser inp.sender) = none →
       (handleIncomingMessage env db inp).1.leads
         = db.leads ++ [newLeadOf db inp (jidUser inp.sender)]) ∧
    (∀ lead0, findLead db.leads inp.orgId (jidUser inp.sender) = some lead0 →
       (handleIncomingMessage env db inp).1.leads
         = updateLead db.leads lead0.id (fun _ => resolveExistingLead inp lead0) ∧
       findLead (handleIncomingMessage env db inp).1.leads inp.orgId (jidUser inp.sender)
         = some (resolveExistingLead inp lead0) ∧
       (inp.isFromMe = true →
          (resolveExistingLead inp lead0).ai_status = AiStatus.paused) ∧
       (inp.name ≠ "" → (resolveExistingLead inp lead0).name = some inp.name) ∧
       (∀ rp, realPhoneOf inp.senderPn = some rp → rp ≠ "" →
          (resolveExistingLead inp lead0).real_phone = some rp)) := by
  cases hfind : findLead db.leads inp.orgId (jidUser inp.sender) with
  | none =>
      have heq := pipelineCore_newLead h horg hfind
      have hhit := dedupPhase_hit
        { db with leads := db.leads ++ [newLeadOf db inp (jidUser inp.sender)]
                  nextLeadId := db.nextLeadId + 1 }
        inp (newLeadOf db inp (jidUser inp.sender)) h hw hne hdup
      have hhandle : handleIncomingMessage env db inp =
          ({ db with leads := db.leads ++ [newLeadOf db inp (jidUser inp.sender)]
                     nextLeadId := db.nextLeadId + 1 },
           Outcome.ok PipeExit.dedupSkipped) := by
        unfold handleIncomingMessage
        rw [heq, hhit]
      rw [hhandle]
      exact ⟨rfl, rfl, fun _ => rfl, fun lead0 hc => Option.noConfusion hc⟩
  | some lead0 =>
      have heq := pipelineCore_existingLead h horg hfind
      have hhit := dedupPhase_hit
        { db with leads := updateLead db.leads lead0.id
                    (fun _ => resolveExistingLead inp lead0) }
        inp (resolveExistingLead inp lead0) h hw hne hdup
      have hhandle : handleIncomingMessage env db inp =
          ({ db with leads := updateLead db.leads lead0.id
                       (fun _ => resolveExistingLead inp lead0) },
           Outcome.ok PipeExit.dedupSkipped) := by
        unfold handleIncomingMessage
        rw [heq, hhit]
      rw [hhandle]
      obtain ⟨ho, hp⟩ := findLead_eq hfind
      refine ⟨rfl, rfl, fun hc => Option.noConfusion hc, fun lead2 hc => ?_⟩
      injection hc with hc1
      subst hc1
      refine ⟨rfl, ?_, ?_, ?_, ?_⟩
      · exact findLead_updateLead hfind
          (by rw [resolveExistingLead_orgId, ho])
          (by rw [resolveExistingLead_phone, hp])
      · intro hme
        rw [resolveExistingLead_ai_status, if_pos hme]
      · exact resolveExistingLead_name inp lead0
      · exact fun rp hr hrne => resolveExistingLead_real_phone inp lead0 hr hrne

/-- C10 witness: the duplicate sample operator event is discarded with the
messages untouched while the active sample lead is paused. -/
theorem C10_dedup_after_lead_mutation_witness :
    (handleIncomingMessage sampleEnv sampleDbDup sampleInpMe).2
      = Outcome.ok PipeExit.dedupSkipped ∧
    (handleIncomingMessage sampleEnv sampleDbDup sampleInpMe).1.messages
      = sampleDbDup.messages ∧
    (resolveExistingLead sampleInpMe sampleLead).ai_status = AiStatus.paused :=
  ⟨(C10_dedup_after_lead_mutation sampleEnv sampleDbDup sampleInpMe "W1"
      rfl rfl (by decide) (by decide) rfl).1,
   (C10_dedup_after_lead_mutation sampleEnv sampleDbDup sampleInpMe "W1"
      rfl rfl (by decide) (by decide) rfl).2.1,
   ((C10_dedup_after_lead_mutation sampleEnv sampleDbDup sampleInpMe "W1"
      rfl rfl (by decide) (by decide) rfl).2.2.2 sampleLead (by decide)).2.2.1 rfl⟩

/-- C3: for a live (non-append), non-broadcast event flagged as coming from
the own device: when its id sits in the pending-echo set the worker drops it
silently, so no message is persisted and no automation status changes (the
storage is returned untouched); otherwise the event is forwarded to the
webhook with the own-device flag set, entering the pipeline as a manual
human-operator message. -/
theorem C3_own_device_echo (env : Env) (sent : List String) (db : Db)
    (orgId utype : String) (msg : RawMessage)
    (hlive : utype ≠ "append")
    (hbr : isJidBroadcast (msg.key.remoteJid.getD "") = false)
    (hme : msg.key.fromMe = true) :
    (∀ i, msg.key.id = some i → i ≠ "" → sent.contains i = true →
       workerUpsertAction sent utype msg.key = .skipEcho ∧
       workerProcessLive env sent db orgId utype msg = (db, .skipEcho)) ∧
    ((match msg.key.id with
      | some i => i = "" ∨ sent.contains i = false
      | none => True) →
       workerUpsertAction sent utype msg.key = .forwarded true ∧
       workerProcessLive env sent db orgId utype msg =
         ((webhookProcess env db orgId msg).1, .forwarded true) ∧
       (webhookInput orgId msg).isFromMe = true) := by
  have hutype : ¬((utype == "append") = true) := by simp [hlive]
  constructor
  · intro i hi hne hcontains
    have hclass : workerUpsertAction sent utype msg.key = .skipEcho := by
      unfold workerUpsertAction workerClassify
      rw [if_neg hutype, if_neg (by simp [hbr]), if_pos hme, hi]
      dsimp only
      rw [if_pos (by rw [Bool.and_eq_true]; exact ⟨by simp [hne], hcontains⟩)]
    refine ⟨hclass, ?_⟩
    unfold workerProcessLive
    rw [hclass]
  · intro hcond
    have hclass : workerUpsertAction sent utype msg.key = .forwarded true := by
      unfold workerUpsertAction workerClassify
      rw [if_neg hutype, if_neg (by simp [hbr]), if_pos hme]
      cases hi : msg.key.id with
      | none =>
          dsimp only
          rw [if_neg (by simp)]
      | some i =>
          rw [hi] at hcond
          dsimp only
          rw [if_neg (by
            intro hcontra
            rw [Bool.and_eq_true] at hcontra
            rcases hcond with h0 | h0
            · simp [h0] at hcontra
            · simp at h0
              exact h0 (by simpa using hcontra.2))]
    refine ⟨hclass, ?_, hme⟩
    unfold workerProcessLive
    rw [hclass]

/-- C3 witness: the echo sample event with its id in the pending-echo set is
dropped with the storage untouched. -/
theorem C3_own_device_echo_witness :
    workerUpsertAction ["3EB0AA"] "notify" echoMsg.key = WorkerAction.skipEcho ∧
    workerProcessLive sampleEnv ["3EB0AA"] sampleDb "org1" "notify" echoMsg
      = (sampleDb, WorkerAction.skipEcho) :=
  (C3_own_device_echo sampleEnv ["3EB0AA"] sampleDb "org1" "notify" echoMsg
      (by decide) (by decide) rfl).1 "3EB0AA" rfl (by decide) (by decide)

/-- C5 counterexample: a live-channel (notify) event stamped 48 hours in the
past is NOT routed to the History Batcher: the worker classifier ignores
timestamps and forwards it to the live pipeline, which persists it and runs
the automated-response path (one message with its id is stored). -/
theorem C5_stale_event_forwarded_live :
    staleNow - decodeMsgTimeMs (TsShape.num 1700000000) = 48 * 60 * 60 * 1000 ∧
    staleWindowMs < staleNow - decodeMsgTimeMs (TsShape.num 1700000000) ∧
    staleLiveMsg.timestamp = some (TsShape.num 1700000000) ∧
    workerUpsertAction [] "notify" staleLiveMsg.key = WorkerAction.forwarded false ∧
    workerUpsertAction [] "notify" staleLiveMsg.key ≠ WorkerAction.queuedHistory ∧
    (workerProcessLive sampleEnv [] sampleDb "org1" "notify" staleLiveMsg).2
      = WorkerAction.forwarded false ∧
    countWithId
      (workerProcessLive sampleEnv [] sampleDb "org1" "notify" staleLiveMsg).1.messages
      "OLD1" = 1 := by
  refine ⟨by decide, by decide, rfl, rfl, by decide, rfl, rfl⟩

/-- C5 amended: routing to the History Batcher is keyed on the upsert type
(append), not on the timestamp — the worker forwards every live event
regardless of age — while the legacy in-process handler drops (skips
outright, without routing to history) any non-broadcast event whose decoded
timestamp is truthy, positive and more than 24 hours older than now. -/
theorem C5_staleness_routing_amended :
    (∀ sent key, workerUpsertAction sent "append" key = WorkerAction.queuedHistory) ∧
    (∀ sent utype key, utype ≠ "append" →
       workerUpsertAction sent utype key = workerClassify sent key) ∧
    (∀ now msg ts,
       isJidBroadcast (msg.key.remoteJid.getD "") = false →
       isJidStatusBroadcast (msg.key.remoteJid.getD "") = false →
       msg.timestamp = some ts → tsTruthy ts = true →
       0 < decodeMsgTimeMs ts →
       staleWindowMs < now - decodeMsgTimeMs ts →
       attachHandlerStep now msg = LiveAction.skipStale) := by
  refine ⟨?_, ?_, ?_⟩
  · intro sent key
    unfold workerUpsertAction
    rw [if_pos (show ("append" == "append") = true from rfl)]
  · intro sent utype key hne
    unfold workerUpsertAction
    rw [if_neg (by simp [hne])]
  · intro now msg ts hbr hsbr hts htr hpos hstale
    unfold attachHandlerStep
    rw [if_neg (by simp [hbr, hsbr])]
    dsimp only
    rw [hts]
    dsimp only
    rw [if_pos htr, if_pos hpos, decide_eq_true hstale]
    rfl

/-- C5 amended witness: the stale sample event is skipped outright by the
legacy handler, and an append batch goes to the HistoryManager. -/
theorem C5_staleness_routing_amended_witness :
    attachHandlerStep staleNow staleLiveMsg = LiveAction.skipStale ∧
    workerUpsertAction [] "append" staleLiveMsg.key = WorkerAction.queuedHistory :=
  ⟨C5_staleness_routing_amended.2.2 staleNow staleLiveMsg (TsShape.num 1700000000)
      (by decide) (by decide) rfl rfl (by decide) (by decide),
   C5_staleness_routing_amended.1 [] staleLiveMsg.key⟩

end Pronto
